import Mathlib

/-!
Verification development for the particle-life simulation engine.

The Rust sources are shallowly embedded: f32 scalars are modelled as exact
rationals (ℚ) wherever the code only adds, multiplies, divides, compares,
clamps or takes signs, and as reals (ℝ) where a Euclidean norm (square root)
enters a formula.  The rand-crate generator is modelled as a deterministic
stream of samples with a cursor; each primitive draw consumes one sample and
is mapped into the range the corresponding rand primitive guarantees.
-/

/-! ## Constants from src/globals.rs -/

/-- PARTICLE_RADIUS = 4.0 (globals.rs). -/
def PARTICLE_RADIUS : ℚ := 4

/-- FOOD_RADIUS = 2.0 (globals.rs). -/
def FOOD_RADIUS : ℚ := 2

/-- COLLISION_DAMPING = 0.5 (globals.rs). -/
def COLLISION_DAMPING : ℚ := 1/2

/-- FORCE_SCALE_FACTOR = 80.0 (globals.rs). -/
def FORCE_SCALE_FACTOR : ℚ := 80

/-- MAX_VELOCITY = 200.0 (globals.rs). -/
def MAX_VELOCITY : ℚ := 200

/-- PHYSICS_TIMESTEP = 0.008 (globals.rs), the fixed timestep of the
sequential (CPU) physics path in physics.rs. -/
def PHYSICS_TIMESTEP : ℚ := 8/1000

/-! ## Genotype (src/components/genetics/genotype.rs) -/

/-- Genotype from genotype.rs: a row-major force matrix of length
type_count * type_count and a food-affinity vector of length type_count. -/
structure Genotype where
  force_matrix : List ℚ
  food_forces : List ℚ
  type_count : ℕ
  deriving DecidableEq

instance : Inhabited Genotype := ⟨⟨[], [], 0⟩⟩

/-- Genotype::get_force: reads force_matrix[type_a * type_count + type_b]
through Vec::get, so an out-of-range index yields 0.0 instead of failing. -/
def Genotype.get_force (g : Genotype) (type_a type_b : ℕ) : ℚ :=
  ((g.force_matrix.get? (type_a * g.type_count + type_b)).getD 0)

/-- Genotype::get_food_force: reads food_forces[particle_type] through
Vec::get, so an out-of-range index yields 0.0 instead of failing. -/
def Genotype.get_food_force (g : Genotype) (particle_type : ℕ) : ℚ :=
  ((g.food_forces.get? particle_type).getD 0)

/-! ## Deterministic model of the rand-crate generator -/

/-- Deterministic model of rand::rng(): an infinite stream of rational raw
samples together with a cursor; every primitive draw consumes one sample. -/
structure Rng where
  stream : ℕ → ℚ
  pos : ℕ

/-- Consume one raw sample. -/
def Rng.next (r : Rng) : ℚ × Rng :=
  (r.stream r.pos, ⟨r.stream, r.pos + 1⟩)

/-- Model of rng.random::<f32>(): a sample mapped into the unit interval,
matching the primitive's guarantee that its result lies in [0, 1). -/
def Rng.unit (r : Rng) : ℚ × Rng :=
  let (q, r1) := r.next
  (max 0 (min q 1), r1)

/-- Model of rng.random_range(lo..=hi): a unit sample mapped affinely onto
[lo, hi], matching the primitive's guarantee on its result range. -/
def Rng.range (r : Rng) (lo hi : ℚ) : ℚ × Rng :=
  let (u, r1) := r.unit
  (lo + (hi - lo) * u, r1)

/-- Model of rng.random_bool(0.5): a unit sample compared against 1/2. -/
def Rng.flip (r : Rng) : Bool × Rng :=
  let (u, r1) := r.unit
  (decide (u < 1/2), r1)

/-- Rust's f32::clamp(lo, hi): min(max(x, lo), hi). -/
def rclamp (lo hi x : ℚ) : ℚ := min (max x lo) hi

/-! ## Genotype::mutate (genotype.rs lines 103-119) -/

/-- One iteration of Genotype::mutate's entry loop: draw a unit sample, and
when it is below the rate add range(-0.2, 0.2) noise and clamp to [-2, 2]. -/
def mutateEntry (rate x : ℚ) (r : Rng) : ℚ × Rng :=
  let (p, r1) := r.unit
  if p < rate then
    let (noise, r2) := r1.range (-(1/5)) (1/5)
    (rclamp (-2) 2 (x + noise), r2)
  else (x, r1)

/-- Genotype::mutate's loop over one Vec of entries, threading the rng. -/
def mutateList (rate : ℚ) : List ℚ → Rng → List ℚ × Rng
  | [], r => ([], r)
  | x :: xs, r =>
    let (y, r1) := mutateEntry rate x r
    let (ys, r2) := mutateList rate xs r1
    (y :: ys, r2)

/-- Genotype::mutate: each force-matrix entry is perturbed with probability
mutation_rate, each food entry with probability mutation_rate * 0.5; a
perturbed entry gains range(-0.2, 0.2) noise and is clamped to [-2, 2]. -/
def Genotype.mutate (g : Genotype) (mutation_rate : ℚ) (r : Rng) : Genotype × Rng :=
  let (fm, r1) := mutateList mutation_rate g.force_matrix r
  let (ff, r2) := mutateList (mutation_rate * (1/2)) g.food_forces r1
  (⟨fm, ff, g.type_count⟩, r2)

/-! ## Genetic engine data (src/systems/simulation/reset.rs) -/

/-- ScoredGenome from reset.rs: a genome snapshot with its epoch score. -/
structure ScoredGenome where
  genotype : Genotype
  score : ℚ
  generation : ℕ
  deriving DecidableEq

instance : Inhabited ScoredGenome := ⟨⟨default, 0, 0⟩⟩

/-- EpochStats from reset.rs, as consumed by the adaptive mutation rate.
The std_deviation field holds whatever the producer stored there (the source
stores the square root of the population variance). -/
structure EpochStats where
  best_score : ℚ
  worst_score : ℚ
  average_score : ℚ
  median_score : ℚ
  std_deviation : ℚ
  improvement : ℚ
  deriving DecidableEq

/-- The descending score sort of reset_for_new_epoch:
scored_genomes.sort_by(|a, b| b.score.partial_cmp(&a.score).unwrap()),
a stable sort placing higher scores first. -/
def sortByScoreDesc (l : List ScoredGenome) : List ScoredGenome :=
  l.mergeSort (fun a b => decide (b.score ≤ a.score))

/-- elite_count from reset_for_new_epoch:
((simulation_count as f32 * elite_ratio).ceil() as usize).max(1).
The ratio argument is the source's elite_ratio field. -/
def eliteCount (simulation_count : ℕ) (elite_frac : ℚ) : ℕ :=
  max (Int.toNat ⌈(simulation_count : ℚ) * elite_frac⌉) 1

/-- calculate_adaptive_mutation_rate from reset.rs lines 258-272. -/
def calculate_adaptive_mutation_rate (stats : EpochStats) (base_rate : ℚ) (epoch : ℕ) : ℚ :=
  let diversity_factor : ℚ :=
    if stats.std_deviation < 5 then 2
    else if 20 < stats.std_deviation then 1/2
    else 1
  let stagnation_factor : ℚ := if stats.improvement ≤ 0 then 3/2 else 1
  let early_exploration : ℚ := if epoch < 10 then 3/2 else 1
  min (base_rate * diversity_factor * stagnation_factor * early_exploration) (1/2)

/-! ## Weighted tournament selection (reset.rs lines 203-232) -/

/-- TOURNAMENT_SIZE constant from weighted_tournament_selection. -/
def TOURNAMENT_SIZE : ℕ := 3

/-- Rank weights of weighted_tournament_selection: 1.0 / (1.0 + i * 0.1). -/
def selectionWeights (n : ℕ) : List ℚ :=
  (List.range n).map (fun i => 1 / (1 + (i : ℚ) * (1/10)))

/-- The subtract-and-stop walk of weighted_tournament_selection: subtract
each weight from the drawn value and stop at the first index where the
remainder is ≤ 0. -/
def pickIndexAux : List ℚ → ℚ → ℕ → Option ℕ
  | [], _, _ => none
  | w :: ws, rnd, i => if rnd - w ≤ 0 then some i else pickIndexAux ws (rnd - w) (i + 1)

def pickWeighted (weights : List ℚ) (rnd : ℚ) : Option ℕ :=
  pickIndexAux weights rnd 0

/-- Rust Iterator::max_by on scored genomes: the last maximal element. -/
def maxByScore : List ScoredGenome → Option ScoredGenome
  | [] => none
  | x :: xs => some (xs.foldl (fun acc y => if acc.score ≤ y.score then y else acc) x)

/-- The tournament-drawing loop: TOURNAMENT_SIZE.min(population.len()) draws,
each drawing random * total_weight and walking the weight list. -/
def drawTournament (weights : List ℚ) : ℕ → Rng → List ℕ × Rng
  | 0, r => ([], r)
  | n + 1, r =>
    let total := weights.sum
    let (u, r1) := r.unit
    let rest := drawTournament weights n r1
    match pickWeighted weights (u * total) with
    | some i => (i :: rest.1, rest.2)
    | none => (rest.1, rest.2)

/-- weighted_tournament_selection from reset.rs: draw tournament indices by
rank weight, take the highest-scoring entrant, fall back to population[0]
(the source unwrap_or panics on an empty population; the fallback default
here is never reached for a nonempty population). -/
def weighted_tournament_selection (population : List ScoredGenome) (r : Rng) : Genotype × Rng :=
  let weights := selectionWeights population.length
  let (idxs, r1) := drawTournament weights (min TOURNAMENT_SIZE population.length) r
  match maxByScore (idxs.filterMap (fun i => population.get? i)) with
  | some g => (g.genotype, r1)
  | none => (((population.get? 0).map (fun sg => sg.genotype)).getD default, r1)

/-! ## Crossover (reset.rs improved_crossover, lines 234-256) -/

/-- Element loop of improved_crossover: per entry flip a fair coin and take
the entry from parent1 or parent2.  The source indexes parent2 by the same
index and panics when parent2 is shorter; the 0 default here is never
reached for parents of equal type_count. -/
def crossList : List ℚ → List ℚ → Rng → List ℚ × Rng
  | [], _, r => ([], r)
  | x :: xs, ys, r =>
    let (b, r1) := r.flip
    let (rest, r2) := crossList xs ys.tail r1
    ((if b then x else ys.headD 0) :: rest, r2)

/-- improved_crossover from reset.rs: uniform crossover of both vectors,
type_count taken from parent1. -/
def improved_crossover (parent1 parent2 : Genotype) (r : Rng) : Genotype × Rng :=
  let (fm, r1) := crossList parent1.force_matrix parent2.force_matrix r
  let (ff, r2) := crossList parent1.food_forces parent2.food_forces r1
  (⟨fm, ff, parent1.type_count⟩, r2)

/-! ## Next-generation assembly (reset_for_new_epoch lines 61-96) -/

/-- One iteration of the offspring while-loop of reset_for_new_epoch: with
probability crossover_rate (and at least two colonies) cross two tournament
parents, otherwise copy one tournament parent; then mutate the child with
the adaptive mutation rate. -/
def offspringStep (sorted : List ScoredGenome) (crossover_rate : ℚ)
    (stats : EpochStats) (base_rate : ℚ) (epoch : ℕ) (r : Rng) : Genotype × Rng :=
  let (u, r1) := r.unit
  let step :=
    if u < crossover_rate ∧ 2 ≤ sorted.length then
      let (p1, ra) := weighted_tournament_selection sorted r1
      let (p2, rb) := weighted_tournament_selection sorted ra
      improved_crossover p1 p2 rb
    else
      weighted_tournament_selection sorted r1
  step.1.mutate (calculate_adaptive_mutation_rate stats base_rate epoch) step.2

/-- The offspring while-loop, unrolled by the number of slots to fill. -/
def offspringList (sorted : List ScoredGenome) (crossover_rate : ℚ)
    (stats : EpochStats) (base_rate : ℚ) (epoch : ℕ) : ℕ → Rng → List Genotype
  | 0, _ => []
  | n + 1, r =>
    let (g, r1) := offspringStep sorted crossover_rate stats base_rate epoch r
    g :: offspringList sorted crossover_rate stats base_rate epoch n r1

/-- The new-genome assembly of reset_for_new_epoch: sort descending by
score, copy the first elite_count genotypes unchanged, then fill the
remaining simulation_count - elite_count slots with mutated offspring.  The
epoch statistics are computed by the caller from the score snapshot (the
source stores their standard deviation through an f32 square root, which is
taken outside this exact rational embedding). -/
def buildNewGenomes (scored : List ScoredGenome) (simulation_count : ℕ)
    (elite_frac crossover_rate : ℚ) (stats : EpochStats) (base_rate : ℚ)
    (epoch : ℕ) (r : Rng) : List Genotype :=
  let sorted := sortByScoreDesc scored
  let ec := eliteCount simulation_count elite_frac
  ((sorted.take ec).map (fun sg => sg.genotype))
    ++ offspringList sorted crossover_rate stats base_rate epoch (simulation_count - ec) r

/-! ## Epoch statistics (reset.rs calculate_epoch_stats, lines 112-152) -/

/-- Rust Iterator::max_by over f32 scores with unwrap_or(0.0): the running
fold keeps the later element on ties (max_by returns the last maximum). -/
def rustMaxBy : List ℚ → ℚ
  | [] => 0
  | x :: xs => xs.foldl (fun acc y => if acc ≤ y then y else acc) x

/-- Rust Iterator::min_by over f32 scores with unwrap_or(0.0): the running
fold keeps the earlier element on ties (min_by returns the first minimum). -/
def rustMinBy : List ℚ → ℚ
  | [] => 0
  | x :: xs => xs.foldl (fun acc y => if y < acc then y else acc) x

/-- The ascending sort used for the median: sorted_scores.sort_by(partial_cmp). -/
def sortAsc (l : List ℚ) : List ℚ :=
  l.mergeSort (fun a b => decide (a ≤ b))

/-- The quantities of reset.rs calculate_epoch_stats before its final square
root: the source stores std_deviation = variance.sqrt(); the exact rational
embedding keeps the population variance and theorems apply Real.sqrt to it. -/
structure EpochStatsCore where
  best_score : ℚ
  worst_score : ℚ
  average_score : ℚ
  median_score : ℚ
  variance : ℚ
  improvement : ℚ
  deriving DecidableEq

/-- calculate_epoch_stats from reset.rs: zero stats on an empty snapshot,
otherwise best = max_by, worst = min_by, average = sum/len, median = middle
of the ascending sort (mean of the two middle entries on even length),
variance = population variance, improvement = best - previous_best. -/
def calculate_epoch_stats_core (scores : List ℚ) (previous_best : ℚ) : EpochStatsCore :=
  if scores = [] then ⟨0, 0, 0, 0, 0, 0⟩ else
  let best := rustMaxBy scores
  let worst := rustMinBy scores
  let average := scores.sum / (scores.length : ℚ)
  let sorted := sortAsc scores
  let median :=
    if sorted.length % 2 = 0 then
      (sorted.getD (sorted.length / 2 - 1) 0 + sorted.getD (sorted.length / 2) 0) / 2
    else sorted.getD (sorted.length / 2) 0
  let variance := (scores.map (fun x => (x - average) ^ 2)).sum / (scores.length : ℚ)
  ⟨best, worst, average, median, variance, best - previous_best⟩

/-! ## Grid and boundary policy (src/resources/world/grid.rs) -/

/-- Three-dimensional vector over exact rationals (bevy Vec3 where only
field arithmetic, comparisons and sign are involved). -/
structure Vec3q where
  x : ℚ
  y : ℚ
  z : ℚ
  deriving DecidableEq

/-- GridParameters from grid.rs: extents of the bounded volume. -/
structure GridParameters where
  width : ℚ
  height : ℚ
  depth : ℚ
  deriving DecidableEq

/-- BoundaryMode from src/resources/world/boundary.rs. -/
inductive BoundaryMode
  | Bounce
  | Teleport
  deriving DecidableEq

/-- Rust f32::signum: 1.0 for positive values and +0.0, -1.0 for negative
values and -0.0 (rationals have a single zero, mapped to 1.0). -/
def rustSignum (q : ℚ) : ℚ := if q < 0 then -1 else 1

/-- One axis of apply_bounce_bounds: when |p| exceeds half_extent -
PARTICLE_RADIUS, clamp the coordinate to signum(p) * (half_extent -
PARTICLE_RADIUS) and scale the axis velocity by -COLLISION_DAMPING. -/
def applyBounceAxis (half_extent p v : ℚ) : ℚ × ℚ :=
  if half_extent - PARTICLE_RADIUS < |p| then
    (rustSignum p * (half_extent - PARTICLE_RADIUS), v * (-COLLISION_DAMPING))
  else (p, v)

/-- GridParameters::apply_bounce_bounds from grid.rs lines 43-65: the three
axes are handled independently with half extents width/2, height/2, depth/2. -/
def apply_bounce_bounds (g : GridParameters) (p v : Vec3q) : Vec3q × Vec3q :=
  let rx := applyBounceAxis (g.width / 2) p.x v.x
  let ry := applyBounceAxis (g.height / 2) p.y v.y
  let rz := applyBounceAxis (g.depth / 2) p.z v.z
  (⟨rx.1, ry.1, rz.1⟩, ⟨rx.2, ry.2, rz.2⟩)

/-- One axis of apply_teleport_bounds: a coordinate past an extent reappears
at the opposite side, shifted by the overshoot. -/
def applyTeleportAxis (half_extent p : ℚ) : ℚ :=
  if half_extent < p then -half_extent + (p - half_extent)
  else if p < -half_extent then half_extent + (p + half_extent)
  else p

/-- GridParameters::apply_teleport_bounds from grid.rs lines 68-93: wraps
each axis independently; the velocity is not an argument at all. -/
def apply_teleport_bounds (g : GridParameters) (p : Vec3q) : Vec3q :=
  ⟨applyTeleportAxis (g.width / 2) p.x,
   applyTeleportAxis (g.height / 2) p.y,
   applyTeleportAxis (g.depth / 2) p.z⟩

/-- GridParameters::apply_bounds from grid.rs lines 35-40: dispatch on the
boundary mode; the Teleport arm forwards only the position. -/
def apply_bounds (g : GridParameters) (p v : Vec3q) (mode : BoundaryMode) : Vec3q × Vec3q :=
  match mode with
  | .Bounce => apply_bounce_bounds g p v
  | .Teleport => (apply_teleport_bounds g p, v)

/-! ## Food collision (src/systems/simulation/collision.rs lines 42-71) -/

/-- A particle as seen by detect_food_collision: its position and the id of
the simulation (colony) entity it belongs to. -/
structure ParticleRef where
  pos : Vec3q
  colony : ℕ
  deriving DecidableEq

/-- An Active food item as seen by the collision loop. -/
structure FoodItem where
  pos : Vec3q
  value : ℚ
  has_respawn_timer : Bool
  deriving DecidableEq

/-- What happens to the food entity after the collision loop. -/
inductive FoodOutcome
  | consumed
  | hiddenReset
  | untouched
  deriving DecidableEq

/-- Squared Euclidean distance between two rational points. -/
def sqDist (a b : Vec3q) : ℚ :=
  (a.x - b.x) ^ 2 + (a.y - b.y) ^ 2 + (a.z - b.z) ^ 2

/-- The collision test of detect_food_collision:
(particle.translation - food_pos).length() < PARTICLE_RADIUS + FOOD_RADIUS,
stated on squared distances; collides_iff_sqrt below bridges to the
source's square-root comparison. -/
def collidesFood (p food_pos : Vec3q) : Bool :=
  decide (sqDist p food_pos < (PARTICLE_RADIUS + FOOD_RADIUS) ^ 2)

/-- Lines 42-71 of detect_food_collision for one Active (visible) food item:
scan the particles in iteration order; the first one within the collision
distance adds the food value to its colony's score, then the food is hidden
with its timer reset when it has a respawn timer and despawned otherwise;
the loop breaks so no second particle can consume the same food that tick. -/
def detect_food_collision_active (food : FoodItem) (particles : List ParticleRef)
    (scores : ℕ → ℚ) : (ℕ → ℚ) × FoodOutcome :=
  match particles.find? (fun pr => collidesFood pr.pos food.pos) with
  | some pr =>
    (Function.update scores pr.colony (scores pr.colony + food.value),
     if food.has_respawn_timer then .hiddenReset else .consumed)
  | none => (scores, .untouched)

/-! ## The batched (GPU) path (src/plugins/simulation/compute.rs) -/

/-- The timestep uniform of ParticleComputeWorker::build: dt = 1.0 / 60.0. -/
def gpuDt : ℚ := 1/60

/-- One-axis velocity integration step shared by both claims about the two
execution paths: velocity + force * dt (physics.rs apply_physics_step before
decay, and the corresponding shader update). -/
def velocityStep (v f dt : ℚ) : ℚ := v + f * dt

/-- The force-matrix upload of update_compute_buffers: only the FIRST
simulation returned by the query has its genome written to the single
force_matrix buffer, whatever colony a particle belongs to. -/
def gpuForceMatrix (sims : List (ℕ × Genotype)) : Option (List ℚ) :=
  sims.head?.map (fun sg => sg.2.force_matrix)

/-- The per-particle genome lookup of the sequential path (calculate_forces
in physics.rs): the genome cached under the particle's own colony id. -/
def cpuGenome (sims : List (ℕ × Genotype)) (colony : ℕ) : Option Genotype :=
  (sims.find? (fun sg => sg.1 == colony)).map (fun sg => sg.2)

/-! ## Pair forces (src/systems/simulation/physics.rs lines 198-222) -/

/-- Three-dimensional vector over the reals, for the formulas that involve a
Euclidean norm. -/
structure Vec3 where
  x : ℝ
  y : ℝ
  z : ℝ

/-- Scalar multiplication of a real vector. -/
noncomputable def Vec3.smul (c : ℝ) (v : Vec3) : Vec3 := ⟨c * v.x, c * v.y, c * v.z⟩

/-- Division of a real vector by a scalar. -/
noncomputable def Vec3.divs (v : Vec3) (c : ℝ) : Vec3 := ⟨v.x / c, v.y / c, v.z / c⟩

/-- Euclidean length of a real vector (bevy Vec3::length). -/
noncomputable def Vec3.len (v : Vec3) : ℝ :=
  Real.sqrt (v.x ^ 2 + v.y ^ 2 + v.z ^ 2)

/-- calculate_acceleration from physics.rs lines 198-222: zero below the
minimum distance, otherwise a piecewise force magnitude in the normalized
distance applied along the normalized relative position. -/
noncomputable def calculate_acceleration (min_r : ℝ) (relative_pos : Vec3)
    (attraction max_force_range : ℝ) : Vec3 :=
  let dist := relative_pos.len
  if dist < 1/1000 then ⟨0, 0, 0⟩
  else
    let normalized_pos := relative_pos.divs max_force_range
    let normalized_dist := dist / max_force_range
    let min_r_normalized := min_r / max_force_range
    let force :=
      if normalized_dist < min_r_normalized then
        normalized_dist / min_r_normalized - 1
      else
        attraction *
          (1 - |1 + min_r_normalized - 2 * normalized_dist| / (1 - min_r_normalized))
    Vec3.smul (force / normalized_dist) normalized_pos

/-- The per-pair accumulation of calculate_forces (physics.rs line 138):
total_force += acceleration * max_force_range. -/
noncomputable def pairForceContribution (min_r : ℝ) (delta : Vec3)
    (attraction max_force_range : ℝ) : Vec3 :=
  Vec3.smul max_force_range (calculate_acceleration min_r delta attraction max_force_range)

/-- Modelled from the spec (claim C6 wording): the piecewise magnitude as a
function of the normalized distance d against the normalized repulsion
radius r: d/r - 1 below r, and the attraction-scaled tent curve
1 - |1 + r - 2d| / (1 - r) from r on. -/
noncomputable def specForceMagnitude (r attraction d : ℝ) : ℝ :=
  if d < r then d / r - 1
  else attraction * (1 - |1 + r - 2 * d| / (1 - r))

/-! ## Concrete inputs used by witnesses and counterexamples -/

/-- The all-zero sample stream: every unit draw yields 0, every
range(lo, hi) draw yields lo. -/
def rng0 : Rng := ⟨fun _ => 0, 0⟩

/-- A 2-type genome with matrix entries 1..4 and food entries 5, 6. -/
def gDemo : Genotype := ⟨[1, 2, 3, 4], [5, 6], 2⟩

/-- A 1-type genome whose single matrix entry 3 already lies outside
[-2, 2]. -/
def gOut : Genotype := ⟨[3], [], 1⟩

/-- Two colonies with distinct single-entry genomes, keyed by colony id. -/
def demoSims : List (ℕ × Genotype) :=
  [(0, ⟨[1], [0], 1⟩), (1, ⟨[2], [0], 1⟩)]

/-- Two scored genomes: colony A scores 5, colony B scores 7. -/
def gA : Genotype := ⟨[0], [0], 1⟩

def gB : Genotype := ⟨[1], [1], 1⟩

def scoredDemo : List ScoredGenome := [⟨gA, 5, 1⟩, ⟨gB, 7, 1⟩]

/-- Zero epoch statistics, used where a stats record is needed. -/
def statsDemo : EpochStats := ⟨0, 0, 0, 0, 0, 0⟩

/-- Grid with the default 800-unit extents. -/
def gridDemo : GridParameters := ⟨800, 800, 800⟩

/-- A single-use Active food of value 3 at the origin. -/
def foodDemo : FoodItem := ⟨⟨0, 0, 0⟩, 3, false⟩

/-- Three particles: colony 0 far away, then colonies 1 and 2 both within
collision distance of the origin. -/
def particlesDemo : List ParticleRef :=
  [⟨⟨100, 0, 0⟩, 0⟩, ⟨⟨1, 2, 0⟩, 1⟩, ⟨⟨0, 3, 0⟩, 2⟩]

/-- The first particle of particlesDemo within collision distance. -/
def prDemo : ParticleRef := ⟨⟨1, 2, 0⟩, 1⟩

/-- A 2-type genome with all entries inside [-2, 2]. -/
def gIn : Genotype := ⟨[1, -2, 0, 2], [1/2, -1], 2⟩

/-- Position of the bounce scenario: x = half_width - 0.5 * PARTICLE_RADIUS. -/
def pB : Vec3q := ⟨398, 0, 0⟩

/-- Velocity of the bounce scenario: moving outward with vx = 10. -/
def vB : Vec3q := ⟨10, 0, 0⟩

/-! ## Theorems -/

/-- C2: for every genome with type_count ≥ 1 and all (in- or out-of-range)
indices, get_force and get_food_force return a value without failing; in
range get_force returns the row-major entry force_matrix[a * type_count + b]
and get_food_force returns food_forces[t], out of range both return 0. -/
theorem genotype_lookup_total (g : Genotype) (h : 1 ≤ g.type_count) (a b t : ℕ) :
    (a * g.type_count + b < g.force_matrix.length →
      g.force_matrix.get? (a * g.type_count + b) = some (g.get_force a b))
    ∧ (g.force_matrix.length ≤ a * g.type_count + b → g.get_force a b = 0)
    ∧ (t < g.food_forces.length →
      g.food_forces.get? t = some (g.get_food_force t))
    ∧ (g.food_forces.length ≤ t → g.get_food_force t = 0) := by
  refine ⟨fun hi => ?_, fun hi => ?_, fun hi => ?_, fun hi => ?_⟩
  · unfold Genotype.get_force
    rw [List.get?_eq_get hi]
    rfl
  · unfold Genotype.get_force
    rw [List.get?_eq_none.mpr hi]
    rfl
  · unfold Genotype.get_food_force
    rw [List.get?_eq_get hi]
    rfl
  · unfold Genotype.get_food_force
    rw [List.get?_eq_none.mpr hi]
    rfl

/-- Witness for C2 at the concrete genome gDemo, with index (1, 0) in range
of the 2x2 matrix and food index 5 out of range. -/
theorem genotype_lookup_total_witness :
    1 ≤ gDemo.type_count
    ∧ ((1 * gDemo.type_count + 0 < gDemo.force_matrix.length →
          gDemo.force_matrix.get? (1 * gDemo.type_count + 0)
            = some (gDemo.get_force 1 0))
      ∧ (gDemo.force_matrix.length ≤ 1 * gDemo.type_count + 0 →
          gDemo.get_force 1 0 = 0)
      ∧ (5 < gDemo.food_forces.length →
          gDemo.food_forces.get? 5 = some (gDemo.get_food_force 5))
      ∧ (gDemo.food_forces.length ≤ 5 → gDemo.get_food_force 5 = 0)) :=
  ⟨by decide, genotype_lookup_total gDemo (by decide) 1 0 5⟩

/-- C10: under Teleport mode a containment application never modifies the
velocity argument: apply_bounds returns the velocity exactly as given and
only the position is wrapped. -/
theorem teleport_keeps_velocity (g : GridParameters) (p v : Vec3q) :
    (apply_bounds g p v BoundaryMode.Teleport).2 = v
    ∧ (apply_bounds g p v BoundaryMode.Teleport).1 = apply_teleport_bounds g p :=
  ⟨rfl, rfl⟩

/-- C1: the sequential and batched paths are not numerically equivalent on
the committed state: the CPU fixed timestep PHYSICS_TIMESTEP = 0.008 differs
from the GPU uniform dt = 1/60, so one velocity integration step from the
same state (velocity 0, force 60) already differs (0.48 vs 1), and the GPU
buffer upload carries only the first colony's force matrix while the
sequential path reads each particle's own colony genome (matrix [2] for
colony 1 of demoSims, not the uploaded [1]). -/
theorem cpu_gpu_paths_diverge :
    PHYSICS_TIMESTEP ≠ gpuDt
    ∧ velocityStep 0 60 PHYSICS_TIMESTEP = 12/25
    ∧ velocityStep 0 60 gpuDt = 1
    ∧ velocityStep 0 60 PHYSICS_TIMESTEP ≠ velocityStep 0 60 gpuDt
    ∧ gpuForceMatrix demoSims = some [1]
    ∧ (cpuGenome demoSims 1).map (fun g => g.force_matrix) = some [2]
    ∧ (cpuGenome demoSims 1).map (fun g => g.force_matrix) ≠ gpuForceMatrix demoSims :=
  ⟨by norm_num [PHYSICS_TIMESTEP, gpuDt],
   by norm_num [velocityStep, PHYSICS_TIMESTEP],
   by norm_num [velocityStep, gpuDt],
   by norm_num [velocityStep, PHYSICS_TIMESTEP, gpuDt],
   by norm_num [gpuForceMatrix, demoSims],
   by norm_num [cpuGenome, demoSims],
   by norm_num [cpuGenome, gpuForceMatrix, demoSims]⟩

/-- C7: under Bounce mode, a coordinate whose absolute value exceeds
half_extent - PARTICLE_RADIUS is mapped to sign * (half_extent -
PARTICLE_RADIUS) and that axis's velocity is scaled by -COLLISION_DAMPING,
while the in-bound axes keep their position and velocity unchanged. -/
theorem bounce_clamps_exceeded_axis (g : GridParameters) (p v : Vec3q)
    (hwr : PARTICLE_RADIUS ≤ g.width / 2)
    (hx : g.width / 2 - PARTICLE_RADIUS < |p.x|)
    (hy : |p.y| ≤ g.height / 2 - PARTICLE_RADIUS)
    (hz : |p.z| ≤ g.depth / 2 - PARTICLE_RADIUS) :
    (apply_bounds g p v BoundaryMode.Bounce).1
        = ⟨(if 0 < p.x then 1 else -1) * (g.width / 2 - PARTICLE_RADIUS), p.y, p.z⟩
    ∧ (apply_bounds g p v BoundaryMode.Bounce).2
        = ⟨-(COLLISION_DAMPING * v.x), v.y, v.z⟩ := by
  have hx0 : p.x ≠ 0 := by
    intro h0
    rw [h0, abs_zero] at hx
    have hpr : (0:ℚ) < PARTICLE_RADIUS := by norm_num [PARTICLE_RADIUS]
    linarith
  have hsign : rustSignum p.x = if 0 < p.x then 1 else -1 := by
    unfold rustSignum
    rcases lt_trichotomy p.x 0 with hc | hc | hc
    · rw [if_pos hc, if_neg (by linarith)]
    · exact absurd hc hx0
    · rw [if_neg (by linarith), if_pos hc]
  have ax : applyBounceAxis (g.width / 2) p.x v.x
      = ((if 0 < p.x then 1 else -1) * (g.width / 2 - PARTICLE_RADIUS),
         -(COLLISION_DAMPING * v.x)) := by
    unfold applyBounceAxis
    rw [if_pos hx, hsign, Prod.mk.injEq]
    exact ⟨rfl, by ring⟩
  have ay : applyBounceAxis (g.height / 2) p.y v.y = (p.y, v.y) := by
    unfold applyBounceAxis
    rw [if_neg (not_lt.mpr hy)]
  have az : applyBounceAxis (g.depth / 2) p.z v.z = (p.z, v.z) := by
    unfold applyBounceAxis
    rw [if_neg (not_lt.mpr hz)]
  simp only [apply_bounds, apply_bounce_bounds, ax, ay, az]
  exact ⟨trivial, trivial⟩

/-- Witness for C7, the spec's bounce scenario: the default 800-wide grid,
a particle at x = 400 - 0.5 * 4 = 398 with vx = 10 ends at x = 396 =
half_width - PARTICLE_RADIUS with vx = -5 = -10 * COLLISION_DAMPING. -/
theorem bounce_clamps_exceeded_axis_witness :
    PARTICLE_RADIUS ≤ gridDemo.width / 2
    ∧ gridDemo.width / 2 - PARTICLE_RADIUS < |pB.x|
    ∧ |pB.y| ≤ gridDemo.height / 2 - PARTICLE_RADIUS
    ∧ |pB.z| ≤ gridDemo.depth / 2 - PARTICLE_RADIUS
    ∧ ((apply_bounds gridDemo pB vB BoundaryMode.Bounce).1
        = ⟨(if 0 < pB.x then 1 else -1) * (gridDemo.width / 2 - PARTICLE_RADIUS),
           pB.y, pB.z⟩
      ∧ (apply_bounds gridDemo pB vB BoundaryMode.Bounce).2
        = ⟨-(COLLISION_DAMPING * vB.x), vB.y, vB.z⟩)
    ∧ (apply_bounds gridDemo pB vB BoundaryMode.Bounce).1 = ⟨396, 0, 0⟩
    ∧ (apply_bounds gridDemo pB vB BoundaryMode.Bounce).2 = ⟨-5, 0, 0⟩ :=
  ⟨by norm_num [PARTICLE_RADIUS, gridDemo],
   by norm_num [gridDemo, pB, PARTICLE_RADIUS],
   by norm_num [gridDemo, pB, PARTICLE_RADIUS],
   by norm_num [gridDemo, pB, PARTICLE_RADIUS],
   bounce_clamps_exceeded_axis gridDemo pB vB
     (by norm_num [PARTICLE_RADIUS, gridDemo])
     (by norm_num [gridDemo, pB, PARTICLE_RADIUS])
     (by norm_num [gridDemo, pB, PARTICLE_RADIUS])
     (by norm_num [gridDemo, pB, PARTICLE_RADIUS]),
   by norm_num [apply_bounds, apply_bounce_bounds, applyBounceAxis, rustSignum,
     gridDemo, pB, vB, PARTICLE_RADIUS, COLLISION_DAMPING],
   by norm_num [apply_bounds, apply_bounce_bounds, applyBounceAxis, rustSignum,
     gridDemo, pB, vB, PARTICLE_RADIUS, COLLISION_DAMPING]⟩

/-- C8: for a single Active food item and any particle list, if some
particle is within collision distance then the first such particle's colony
score increases by exactly the food's value, every other colony score is
unchanged (so no second in-range particle scores off that food this tick),
and the food is permanently removed when it has no respawn timer while a
food with a respawn timer becomes Hidden with its timer reset. -/
theorem food_consumed_by_first_match (food : FoodItem) (particles : List ParticleRef)
    (scores : ℕ → ℚ) (pr : ParticleRef)
    (hfirst : particles.find? (fun q => collidesFood q.pos food.pos) = some pr) :
    ((detect_food_collision_active food particles scores).1 pr.colony
        = scores pr.colony + food.value)
    ∧ (∀ c, c ≠ pr.colony →
        (detect_food_collision_active food particles scores).1 c = scores c)
    ∧ (food.has_respawn_timer = false →
        (detect_food_collision_active food particles scores).2 = FoodOutcome.consumed)
    ∧ (food.has_respawn_timer = true →
        (detect_food_collision_active food particles scores).2 = FoodOutcome.hiddenReset)
    ∧ pr ∈ particles
    ∧ collidesFood pr.pos food.pos = true := by
  have hres : detect_food_collision_active food particles scores
      = (Function.update scores pr.colony (scores pr.colony + food.value),
         if food.has_respawn_timer then .hiddenReset else .consumed) := by
    unfold detect_food_collision_active
    rw [hfirst]
  have hp0 := List.find?_some hfirst
  have hp : collidesFood pr.pos food.pos = true := hp0
  refine ⟨?_, ?_, ?_, ?_, List.mem_of_find?_eq_some hfirst, hp⟩
  · rw [hres]
    exact Function.update_same _ _ _
  · intro c hc
    rw [hres]
    exact Function.update_noteq hc _ _
  · intro ht
    rw [hres, ht]
    rfl
  · intro ht
    rw [hres, ht]
    rfl

/-- Witness for C8: the single-use food of value 3 at the origin, a far-away
particle of colony 0 followed by two in-range particles of colonies 1 and 2;
only colony 1 (the first match) gains 3, and the food outcome is consumed. -/
theorem food_consumed_by_first_match_witness :
    (particlesDemo.find? (fun q => collidesFood q.pos foodDemo.pos) = some prDemo)
    ∧ (((detect_food_collision_active foodDemo particlesDemo (fun _ => 0)).1 prDemo.colony
          = (fun _ => (0:ℚ)) prDemo.colony + foodDemo.value)
      ∧ (∀ c, c ≠ prDemo.colony →
          (detect_food_collision_active foodDemo particlesDemo (fun _ => 0)).1 c
            = (fun _ => (0:ℚ)) c)
      ∧ (foodDemo.has_respawn_timer = false →
          (detect_food_collision_active foodDemo particlesDemo (fun _ => 0)).2
            = FoodOutcome.consumed)
      ∧ (foodDemo.has_respawn_timer = true →
          (detect_food_collision_active foodDemo particlesDemo (fun _ => 0)).2
            = FoodOutcome.hiddenReset)
      ∧ prDemo ∈ particlesDemo
      ∧ collidesFood prDemo.pos foodDemo.pos = true) :=
  ⟨by norm_num [particlesDemo, foodDemo, prDemo, collidesFood, sqDist,
      PARTICLE_RADIUS, FOOD_RADIUS],
   food_consumed_by_first_match foodDemo particlesDemo (fun _ => 0) prDemo
     (by norm_num [particlesDemo, foodDemo, prDemo, collidesFood, sqDist,
        PARTICLE_RADIUS, FOOD_RADIUS])⟩

/-- A modelled unit draw lies in [0, 1]. -/
theorem Rng.unit_mem (r : Rng) : 0 ≤ (r.unit).1 ∧ (r.unit).1 ≤ 1 := by
  show 0 ≤ max 0 (min (r.stream r.pos) 1) ∧ max 0 (min (r.stream r.pos) 1) ≤ 1
  exact ⟨le_max_left _ _, max_le (by norm_num) (min_le_right _ _)⟩

/-- A modelled range(lo, hi) draw lies in [lo, hi]. -/
theorem Rng.range_mem (r : Rng) (lo hi : ℚ) (h : lo ≤ hi) :
    lo ≤ (r.range lo hi).1 ∧ (r.range lo hi).1 ≤ hi := by
  have hu := Rng.unit_mem r
  show lo ≤ lo + (hi - lo) * (r.unit).1 ∧ lo + (hi - lo) * (r.unit).1 ≤ hi
  constructor
  · nlinarith [hu.1, hu.2]
  · nlinarith [hu.1, hu.2]

/-- The [-2, 2] clamp lands in [-2, 2]. -/
theorem rclamp_mem (x : ℚ) : -2 ≤ rclamp (-2) 2 x ∧ rclamp (-2) 2 x ≤ 2 := by
  unfold rclamp
  exact ⟨le_min (le_max_right _ _) (by norm_num), min_le_right _ _⟩

/-- Unfolding equation for mutateEntry. -/
theorem mutateEntry_eq (rate x : ℚ) (r : Rng) :
    mutateEntry rate x r
      = if (r.unit).1 < rate then
          (rclamp (-2) 2 (x + ((r.unit).2.range (-(1/5)) (1/5)).1),
           ((r.unit).2.range (-(1/5)) (1/5)).2)
        else (x, (r.unit).2) := rfl

/-- Unfolding equation for mutateList on a cons cell. -/
theorem mutateList_cons (rate x : ℚ) (xs : List ℚ) (r : Rng) :
    mutateList rate (x :: xs) r
      = ((mutateEntry rate x r).1 :: (mutateList rate xs (mutateEntry rate x r).2).1,
         (mutateList rate xs (mutateEntry rate x r).2).2) := rfl

/-- Unfolding equation for mutateList on the empty list. -/
theorem mutateList_nil (rate : ℚ) (r : Rng) : mutateList rate [] r = ([], r) := rfl

/-- Unfolding equation for Genotype.mutate. -/
theorem Genotype.mutate_eq (g : Genotype) (rate : ℚ) (r : Rng) :
    g.mutate rate r
      = (⟨(mutateList rate g.force_matrix r).1,
          (mutateList (rate * (1/2)) g.food_forces
            (mutateList rate g.force_matrix r).2).1,
          g.type_count⟩,
         (mutateList (rate * (1/2)) g.food_forces
           (mutateList rate g.force_matrix r).2).2) := rfl

/-- Each entry either passes through mutateEntry unchanged or comes out as
the clamp of the entry plus a noise value in [-1/5, 1/5]. -/
theorem mutateEntry_cases (rate x : ℚ) (r : Rng) :
    (mutateEntry rate x r).1 = x ∨
    ∃ noise, -(1/5) ≤ noise ∧ noise ≤ 1/5 ∧
      (mutateEntry rate x r).1 = rclamp (-2) 2 (x + noise) := by
  rw [mutateEntry_eq]
  split_ifs with hc
  · right
    refine ⟨((r.unit).2.range (-(1/5)) (1/5)).1, ?_, ?_, rfl⟩
    · exact (Rng.range_mem _ _ _ (by norm_num)).1
    · exact (Rng.range_mem _ _ _ (by norm_num)).2
  · left
    rfl

/-- Position-wise characterization of mutateList: every position is either
unchanged or the clamp of the original entry plus bounded noise. -/
theorem mutateList_get (rate : ℚ) : ∀ (l : List ℚ) (r : Rng) (i : ℕ),
    (mutateList rate l r).1.get? i = l.get? i ∨
    ∃ noise, -(1/5) ≤ noise ∧ noise ≤ 1/5 ∧
      (mutateList rate l r).1.get? i
        = (l.get? i).map (fun x => rclamp (-2) 2 (x + noise)) := by
  intro l
  induction l with
  | nil => intro r i; left; rfl
  | cons x xs ih =>
    intro r i
    cases i with
    | zero =>
      rcases mutateEntry_cases rate x r with hu | ⟨noise, hn1, hn2, hn3⟩
      · exact Or.inl (congrArg some hu)
      · exact Or.inr ⟨noise, hn1, hn2, congrArg some hn3⟩
    | succ j =>
      rcases ih (mutateEntry rate x r).2 j with hu | ⟨noise, hn1, hn2, hn3⟩
      · exact Or.inl hu
      · exact Or.inr ⟨noise, hn1, hn2, hn3⟩

/-- Every output entry of mutateList is an input entry or lies in [-2, 2]. -/
theorem mutateList_mem (rate : ℚ) : ∀ (l : List ℚ) (r : Rng),
    ∀ y ∈ (mutateList rate l r).1, y ∈ l ∨ (-2 ≤ y ∧ y ≤ 2) := by
  intro l
  induction l with
  | nil =>
    intro r y hy
    rw [mutateList_nil] at hy
    exact absurd hy (List.not_mem_nil y)
  | cons x xs ih =>
    intro r y hy
    rw [mutateList_cons] at hy
    rcases List.mem_cons.mp hy with h0 | h0
    · rcases mutateEntry_cases rate x r with hu | ⟨noise, _, _, hn3⟩
      · left
        rw [h0, hu]
        exact List.mem_cons_self _ _
      · right
        rw [h0, hn3]
        exact rclamp_mem _
    · rcases ih _ y h0 with hmem | hb
      · left
        exact List.mem_cons_of_mem _ hmem
      · right
        exact hb

/-- C9 (amended): after Genotype::mutate, every force-matrix and food entry
is either the unchanged original entry or the [-2, 2]-clamp of the original
plus uniform noise in [-0.2, 0.2]; consequently when every starting entry
already lies in [-2, 2] every entry after mutation lies in [-2, 2].  (As
literally stated over EVERY genome the claim fails: an entry outside [-2, 2]
that the rng does not select for perturbation is returned unchanged, see the
counterexample.) -/
theorem mutate_keeps_bounds (g : Genotype) (rate : ℚ) (r : Rng)
    (hm : ∀ x ∈ g.force_matrix, -2 ≤ x ∧ x ≤ 2)
    (hf : ∀ x ∈ g.food_forces, -2 ≤ x ∧ x ≤ 2) :
    (∀ y ∈ ((g.mutate rate r).1).force_matrix, -2 ≤ y ∧ y ≤ 2)
    ∧ (∀ y ∈ ((g.mutate rate r).1).food_forces, -2 ≤ y ∧ y ≤ 2)
    ∧ (∀ i, ((g.mutate rate r).1).force_matrix.get? i = g.force_matrix.get? i ∨
        ∃ noise, -(1/5) ≤ noise ∧ noise ≤ 1/5 ∧
          ((g.mutate rate r).1).force_matrix.get? i
            = (g.force_matrix.get? i).map (fun x => rclamp (-2) 2 (x + noise)))
    ∧ (∀ i, ((g.mutate rate r).1).food_forces.get? i = g.food_forces.get? i ∨
        ∃ noise, -(1/5) ≤ noise ∧ noise ≤ 1/5 ∧
          ((g.mutate rate r).1).food_forces.get? i
            = (g.food_forces.get? i).map (fun x => rclamp (-2) 2 (x + noise))) := by
  rw [Genotype.mutate_eq]
  refine ⟨?_, ?_, ?_, ?_⟩
  · intro y hy
    rcases mutateList_mem rate g.force_matrix r y hy with hmem | hb
    · exact hm y hmem
    · exact hb
  · intro y hy
    rcases mutateList_mem (rate * (1/2)) g.food_forces _ y hy with hmem | hb
    · exact hf y hmem
    · exact hb
  · intro i
    exact mutateList_get rate g.force_matrix r i
  · intro i
    exact mutateList_get (rate * (1/2)) g.food_forces _ i

/-- Counterexample for C9 as literally stated: the genome gOut has matrix
entry 3; with rate 0 and the all-zero stream no entry is perturbed, so the
entry 3 survives mutation and lies outside [-2, 2]. -/
theorem mutate_escapes_bounds :
    ¬ ∀ (g : Genotype) (rate : ℚ) (r : Rng),
        ∀ y ∈ ((g.mutate rate r).1).force_matrix, -2 ≤ y ∧ y ≤ 2 := by
  intro hall
  have hunit : (rng0.unit).1 = 0 := by
    show max 0 (min ((0:ℚ)) 1) = 0
    norm_num
  have hentry : (mutateEntry 0 3 rng0).1 = 3 := by
    rw [mutateEntry_eq, if_neg (by rw [hunit]; norm_num)]
  have h3 : (3:ℚ) ∈ ((gOut.mutate 0 rng0).1).force_matrix := by
    rw [Genotype.mutate_eq]
    show (3:ℚ) ∈ (mutateList 0 [3] rng0).1
    rw [mutateList_cons]
    show (3:ℚ) ∈ (mutateEntry 0 3 rng0).1
      :: (mutateList 0 [] (mutateEntry 0 3 rng0).2).1
    rw [hentry]
    exact List.mem_cons_self _ _
  have hb := (hall gOut 0 rng0 3 h3).2
  norm_num at hb

/-- Witness for C9 at the concrete in-bounds genome gIn with rate 1 and the
all-zero stream. -/
theorem mutate_keeps_bounds_witness :
    (∀ x ∈ gIn.force_matrix, -2 ≤ x ∧ x ≤ 2)
    ∧ (∀ x ∈ gIn.food_forces, -2 ≤ x ∧ x ≤ 2)
    ∧ ((∀ y ∈ ((gIn.mutate 1 rng0).1).force_matrix, -2 ≤ y ∧ y ≤ 2)
      ∧ (∀ y ∈ ((gIn.mutate 1 rng0).1).food_forces, -2 ≤ y ∧ y ≤ 2)
      ∧ (∀ i, ((gIn.mutate 1 rng0).1).force_matrix.get? i
            = gIn.force_matrix.get? i ∨
          ∃ noise, -(1/5) ≤ noise ∧ noise ≤ 1/5 ∧
            ((gIn.mutate 1 rng0).1).force_matrix.get? i
              = (gIn.force_matrix.get? i).map (fun x => rclamp (-2) 2 (x + noise)))
      ∧ (∀ i, ((gIn.mutate 1 rng0).1).food_forces.get? i
            = gIn.food_forces.get? i ∨
          ∃ noise, -(1/5) ≤ noise ∧ noise ≤ 1/5 ∧
            ((gIn.mutate 1 rng0).1).food_forces.get? i
              = (gIn.food_forces.get? i).map (fun x => rclamp (-2) 2 (x + noise)))) :=
  ⟨by intro x hx; simp [gIn] at hx; rcases hx with h | h | h | h <;> norm_num [h],
   by intro x hx; simp [gIn] at hx; rcases hx with h | h <;> norm_num [h],
   mutate_keeps_bounds gIn 1 rng0
     (by intro x hx; simp [gIn] at hx; rcases hx with h | h | h | h <;> norm_num [h])
     (by intro x hx; simp [gIn] at hx; rcases hx with h | h <;> norm_num [h])⟩

/-- C4: the adaptive mutation rate equals min(0.5, base_rate * diversity *
stagnation * early_exploration) with diversity 2 below std-deviation 5, 1/2
above 20 and 1 otherwise, stagnation 3/2 when improvement ≤ 0, and early
exploration 3/2 before epoch 10; it never exceeds 0.5, and for a
nonnegative base rate (the data model constrains mutation_rate to [0, 1])
it is non-decreasing when moving into the stagnation or early-epoch
condition with the other factors held fixed. -/
theorem adaptive_rate_spec (stats : EpochStats) (base_rate : ℚ) (epoch : ℕ)
    (hb : 0 ≤ base_rate) :
    calculate_adaptive_mutation_rate stats base_rate epoch
      = min (1/2)
          (base_rate
            * (if stats.std_deviation < 5 then 2
               else if 20 < stats.std_deviation then 1/2 else 1)
            * (if stats.improvement ≤ 0 then 3/2 else 1)
            * (if epoch < 10 then 3/2 else 1))
    ∧ calculate_adaptive_mutation_rate stats base_rate epoch ≤ 1/2
    ∧ (∀ s2 : EpochStats, s2.std_deviation = stats.std_deviation →
        stats.improvement ≤ 0 → 0 < s2.improvement →
        calculate_adaptive_mutation_rate s2 base_rate epoch
          ≤ calculate_adaptive_mutation_rate stats base_rate epoch)
    ∧ (∀ e2 : ℕ, epoch < 10 → 10 ≤ e2 →
        calculate_adaptive_mutation_rate stats base_rate e2
          ≤ calculate_adaptive_mutation_rate stats base_rate epoch) := by
  have hD : (0:ℚ) < (if stats.std_deviation < 5 then 2
      else if 20 < stats.std_deviation then 1/2 else 1) := by
    split_ifs <;> norm_num
  have hS : (0:ℚ) < (if stats.improvement ≤ 0 then 3/2 else 1) := by
    split_ifs <;> norm_num
  have hE : (0:ℚ) < (if epoch < 10 then (3:ℚ)/2 else 1) := by
    split_ifs <;> norm_num
  unfold calculate_adaptive_mutation_rate
  refine ⟨min_comm _ _, min_le_right _ _, ?_, ?_⟩
  · intro s2 h2 himp himp2
    rw [h2, if_neg (by linarith : ¬ s2.improvement ≤ 0), if_pos himp]
    refine min_le_min ?_ le_rfl
    nlinarith [mul_nonneg (mul_nonneg hb hD.le) hE.le]
  · intro e2 he1 he2
    rw [if_pos he1, if_neg (by omega : ¬ e2 < 10)]
    refine min_le_min ?_ le_rfl
    nlinarith [mul_nonneg (mul_nonneg hb hD.le) hS.le]

/-- Witness for C4 at all-zero statistics (std-deviation 0, improvement 0),
base rate 1/10 and epoch 0. -/
theorem adaptive_rate_spec_witness :
    (0:ℚ) ≤ 1/10
    ∧ (calculate_adaptive_mutation_rate statsDemo (1/10) 0
        = min (1/2)
            ((1/10)
              * (if statsDemo.std_deviation < 5 then 2
                 else if 20 < statsDemo.std_deviation then 1/2 else 1)
              * (if statsDemo.improvement ≤ 0 then 3/2 else 1)
              * (if (0:ℕ) < 10 then 3/2 else 1))
      ∧ calculate_adaptive_mutation_rate statsDemo (1/10) 0 ≤ 1/2
      ∧ (∀ s2 : EpochStats, s2.std_deviation = statsDemo.std_deviation →
          statsDemo.improvement ≤ 0 → 0 < s2.improvement →
          calculate_adaptive_mutation_rate s2 (1/10) 0
            ≤ calculate_adaptive_mutation_rate statsDemo (1/10) 0)
      ∧ (∀ e2 : ℕ, (0:ℕ) < 10 → 10 ≤ e2 →
          calculate_adaptive_mutation_rate statsDemo (1/10) e2
            ≤ calculate_adaptive_mutation_rate statsDemo (1/10) 0)) :=
  ⟨by norm_num, adaptive_rate_spec statsDemo (1/10) 0 (by norm_num)⟩

/-- The max_by fold returns its seed or a list element. -/
theorem foldMax_mem (xs : List ℚ) : ∀ x : ℚ,
    xs.foldl (fun acc y => if acc ≤ y then y else acc) x = x ∨
    xs.foldl (fun acc y => if acc ≤ y then y else acc) x ∈ xs := by
  induction xs with
  | nil => intro x; left; rfl
  | cons y ys ih =>
    intro x
    rcases ih (if x ≤ y then y else x) with h | h
    · rw [List.foldl_cons] at *
      rw [h]
      split_ifs with hc
      · exact Or.inr (List.mem_cons_self _ _)
      · exact Or.inl rfl
    · exact Or.inr (List.mem_cons_of_mem _ h)

/-- The max_by fold dominates its seed and every list element. -/
theorem foldMax_le (xs : List ℚ) : ∀ x : ℚ,
    x ≤ xs.foldl (fun acc y => if acc ≤ y then y else acc) x
    ∧ ∀ z ∈ xs, z ≤ xs.foldl (fun acc y => if acc ≤ y then y else acc) x := by
  induction xs with
  | nil =>
    intro x
    exact ⟨le_refl x, fun z hz => absurd hz (List.not_mem_nil z)⟩
  | cons y ys ih =>
    intro x
    have hstep : x ≤ (if x ≤ y then y else x) ∧ y ≤ (if x ≤ y then y else x) := by
      split_ifs with hc
      · exact ⟨hc, le_refl y⟩
      · exact ⟨le_refl x, le_of_not_le hc⟩
    obtain ⟨h1, h2⟩ := ih (if x ≤ y then y else x)
    refine ⟨le_trans hstep.1 h1, ?_⟩
    intro z hz
    rcases List.mem_cons.mp hz with rfl | hz2
    · exact le_trans hstep.2 h1
    · exact h2 z hz2

/-- The min_by fold returns its seed or a list element. -/
theorem foldMin_mem (xs : List ℚ) : ∀ x : ℚ,
    xs.foldl (fun acc y => if y < acc then y else acc) x = x ∨
    xs.foldl (fun acc y => if y < acc then y else acc) x ∈ xs := by
  induction xs with
  | nil => intro x; left; rfl
  | cons y ys ih =>
    intro x
    rcases ih (if y < x then y else x) with h | h
    · rw [List.foldl_cons] at *
      rw [h]
      split_ifs with hc
      · exact Or.inr (List.mem_cons_self _ _)
      · exact Or.inl rfl
    · exact Or.inr (List.mem_cons_of_mem _ h)

/-- The min_by fold is below its seed and every list element. -/
theorem foldMin_le (xs : List ℚ) : ∀ x : ℚ,
    xs.foldl (fun acc y => if y < acc then y else acc) x ≤ x
    ∧ ∀ z ∈ xs, xs.foldl (fun acc y => if y < acc then y else acc) x ≤ z := by
  induction xs with
  | nil =>
    intro x
    exact ⟨le_refl x, fun z hz => absurd hz (List.not_mem_nil z)⟩
  | cons y ys ih =>
    intro x
    have hstep : (if y < x then y else x) ≤ x ∧ (if y < x then y else x) ≤ y := by
      split_ifs with hc
      · exact ⟨hc.le, le_refl y⟩
      · exact ⟨le_refl x, le_of_not_lt hc⟩
    obtain ⟨h1, h2⟩ := ih (if y < x then y else x)
    refine ⟨le_trans h1 hstep.1, ?_⟩
    intro z hz
    rcases List.mem_cons.mp hz with rfl | hz2
    · exact le_trans h1 hstep.2
    · exact h2 z hz2

/-- rustMaxBy of a nonempty list is a member bounding every element. -/
theorem rustMaxBy_spec (l : List ℚ) (h : l ≠ []) :
    rustMaxBy l ∈ l ∧ ∀ x ∈ l, x ≤ rustMaxBy l := by
  match l, h with
  | x :: xs, _ =>
    constructor
    · show xs.foldl (fun acc y => if acc ≤ y then y else acc) x ∈ x :: xs
      rcases foldMax_mem xs x with h1 | h1
      · rw [h1]
        exact List.mem_cons_self _ _
      · exact List.mem_cons_of_mem _ h1
    · intro z hz
      show z ≤ xs.foldl (fun acc y => if acc ≤ y then y else acc) x
      obtain ⟨h1, h2⟩ := foldMax_le xs x
      rcases List.mem_cons.mp hz with rfl | hz2
      · exact h1
      · exact h2 z hz2

/-- rustMinBy of a nonempty list is a member below every element. -/
theorem rustMinBy_spec (l : List ℚ) (h : l ≠ []) :
    rustMinBy l ∈ l ∧ ∀ x ∈ l, rustMinBy l ≤ x := by
  match l, h with
  | x :: xs, _ =>
    constructor
    · show xs.foldl (fun acc y => if y < acc then y else acc) x ∈ x :: xs
      rcases foldMin_mem xs x with h1 | h1
      · rw [h1]
        exact List.mem_cons_self _ _
      · exact List.mem_cons_of_mem _ h1
    · intro z hz
      show xs.foldl (fun acc y => if y < acc then y else acc) x ≤ z
      obtain ⟨h1, h2⟩ := foldMin_le xs x
      rcases List.mem_cons.mp hz with rfl | hz2
      · exact h1
      · exact h2 z hz2

/-- The ascending sort is a permutation of its input. -/
theorem sortAsc_perm (l : List ℚ) : (sortAsc l).Perm l :=
  List.mergeSort_perm l _

/-- The ascending sort is sorted by ≤. -/
theorem sortAsc_pairwise (l : List ℚ) : List.Pairwise (· ≤ ·) (sortAsc l) := by
  have hs := @List.sorted_mergeSort ℚ (fun a b => decide (a ≤ b))
    (fun a b c hab hbc =>
      decide_eq_true (le_trans (of_decide_eq_true hab) (of_decide_eq_true hbc)))
    (fun a b => by rcases le_total a b with h | h <;> simp [h]) l
  exact hs.imp (fun h => of_decide_eq_true h)

/-- Unfolding equation of calculate_epoch_stats_core on a nonempty list. -/
theorem calculate_epoch_stats_core_eq (scores : List ℚ) (previous_best : ℚ)
    (h : scores ≠ []) :
    calculate_epoch_stats_core scores previous_best
      = ⟨rustMaxBy scores, rustMinBy scores, scores.sum / (scores.length : ℚ),
         (if (sortAsc scores).length % 2 = 0 then
            ((sortAsc scores).getD ((sortAsc scores).length / 2 - 1) 0
              + (sortAsc scores).getD ((sortAsc scores).length / 2) 0) / 2
          else (sortAsc scores).getD ((sortAsc scores).length / 2) 0),
         (scores.map (fun x => (x - scores.sum / (scores.length : ℚ)) ^ 2)).sum
           / (scores.length : ℚ),
         rustMaxBy scores - previous_best⟩ := by
  unfold calculate_epoch_stats_core
  rw [if_neg h]


/-- The ascending sort of the already-sorted example score list. -/
theorem sortAsc_example : sortAsc [(10:ℚ), 20, 30, 40] = [10, 20, 30, 40] := by
  unfold sortAsc
  rw [List.mergeSort_eq_self]
  norm_num [List.sorted_cons]

/-- C5 (amended): for every nonempty score list the computed epoch stats
satisfy best = maximum (a member bounding all scores), worst = minimum
(a member below all scores), average = arithmetic mean, median = middle of
the ascending sorted copy (mean of the two middle entries on even count),
variance = population variance whose square root is the stored
std-deviation, and improvement = best - previous best; the previous best
starts at 0, so on the first epoch considered the improvement equals the
best score rather than 0 (see the counterexample).  On scores
[10, 20, 30, 40] this yields best 40, worst 10, average 25, median 25 and
std-deviation √125. -/
theorem epoch_stats_spec (scores : List ℚ) (previous_best : ℚ) (h : scores ≠ []) :
    (calculate_epoch_stats_core scores previous_best).best_score ∈ scores
    ∧ (∀ x ∈ scores, x ≤ (calculate_epoch_stats_core scores previous_best).best_score)
    ∧ (calculate_epoch_stats_core scores previous_best).worst_score ∈ scores
    ∧ (∀ x ∈ scores, (calculate_epoch_stats_core scores previous_best).worst_score ≤ x)
    ∧ (calculate_epoch_stats_core scores previous_best).average_score
        = scores.sum / (scores.length : ℚ)
    ∧ (sortAsc scores).Perm scores
    ∧ List.Pairwise (· ≤ ·) (sortAsc scores)
    ∧ (calculate_epoch_stats_core scores previous_best).median_score
        = (if (sortAsc scores).length % 2 = 0 then
            ((sortAsc scores).getD ((sortAsc scores).length / 2 - 1) 0
              + (sortAsc scores).getD ((sortAsc scores).length / 2) 0) / 2
           else (sortAsc scores).getD ((sortAsc scores).length / 2) 0)
    ∧ (calculate_epoch_stats_core scores previous_best).variance
        = (scores.map (fun x => (x - scores.sum / (scores.length : ℚ)) ^ 2)).sum
            / (scores.length : ℚ)
    ∧ (calculate_epoch_stats_core scores previous_best).improvement
        = (calculate_epoch_stats_core scores previous_best).best_score - previous_best
    ∧ (calculate_epoch_stats_core [10, 20, 30, 40] 0).best_score = 40
    ∧ (calculate_epoch_stats_core [10, 20, 30, 40] 0).worst_score = 10
    ∧ (calculate_epoch_stats_core [10, 20, 30, 40] 0).average_score = 25
    ∧ (calculate_epoch_stats_core [10, 20, 30, 40] 0).median_score = 25
    ∧ (calculate_epoch_stats_core [10, 20, 30, 40] 0).variance = 125
    ∧ Real.sqrt (((calculate_epoch_stats_core [10, 20, 30, 40] 0).variance : ℚ) : ℝ)
        = Real.sqrt 125 := by
  have he := calculate_epoch_stats_core_eq scores previous_best h
  have hex := calculate_epoch_stats_core_eq [10, 20, 30, 40] 0 (by simp)
  obtain ⟨hmax1, hmax2⟩ := rustMaxBy_spec scores h
  obtain ⟨hmin1, hmin2⟩ := rustMinBy_spec scores h
  rw [he, hex]
  refine ⟨hmax1, hmax2, hmin1, hmin2, rfl, sortAsc_perm scores, sortAsc_pairwise scores,
    rfl, rfl, rfl, ?_, ?_, ?_, ?_, ?_, ?_⟩
  · norm_num [rustMaxBy]
  · norm_num [rustMinBy]
  · norm_num
  · rw [sortAsc_example]
    norm_num
  · norm_num
  · norm_num

/-- Counterexample for the first-epoch clause of C5: with the previous-best
local starting at 0, the first considered epoch on scores [10, 20, 30, 40]
reports improvement 40 (the best score), not 0. -/
theorem epoch_stats_first_improvement_not_zero :
    (calculate_epoch_stats_core [10, 20, 30, 40] 0).improvement = 40
    ∧ (calculate_epoch_stats_core [10, 20, 30, 40] 0).improvement ≠ 0 := by
  rw [calculate_epoch_stats_core_eq [10, 20, 30, 40] 0 (by simp)]
  constructor
  · norm_num [rustMaxBy]
  · norm_num [rustMaxBy]

/-- Witness for C5 at the example score list with previous best 0. -/
theorem epoch_stats_spec_witness :
    ([(10:ℚ), 20, 30, 40] ≠ [])
    ∧ ((calculate_epoch_stats_core [10, 20, 30, 40] 0).best_score ∈ [(10:ℚ), 20, 30, 40]
      ∧ (∀ x ∈ [(10:ℚ), 20, 30, 40],
          x ≤ (calculate_epoch_stats_core [10, 20, 30, 40] 0).best_score)
      ∧ (calculate_epoch_stats_core [10, 20, 30, 40] 0).worst_score ∈ [(10:ℚ), 20, 30, 40]
      ∧ (∀ x ∈ [(10:ℚ), 20, 30, 40],
          (calculate_epoch_stats_core [10, 20, 30, 40] 0).worst_score ≤ x)
      ∧ (calculate_epoch_stats_core [10, 20, 30, 40] 0).average_score
          = [(10:ℚ), 20, 30, 40].sum / (([(10:ℚ), 20, 30, 40].length) : ℚ)
      ∧ (sortAsc [10, 20, 30, 40]).Perm [10, 20, 30, 40]
      ∧ List.Pairwise (· ≤ ·) (sortAsc [10, 20, 30, 40])
      ∧ (calculate_epoch_stats_core [10, 20, 30, 40] 0).median_score
          = (if (sortAsc [10, 20, 30, 40]).length % 2 = 0 then
              ((sortAsc [10, 20, 30, 40]).getD ((sortAsc [10, 20, 30, 40]).length / 2 - 1) 0
                + (sortAsc [10, 20, 30, 40]).getD ((sortAsc [10, 20, 30, 40]).length / 2) 0) / 2
             else (sortAsc [10, 20, 30, 40]).getD ((sortAsc [10, 20, 30, 40]).length / 2) 0)
      ∧ (calculate_epoch_stats_core [10, 20, 30, 40] 0).variance
          = ([(10:ℚ), 20, 30, 40].map
              (fun x => (x - [(10:ℚ), 20, 30, 40].sum
                / (([(10:ℚ), 20, 30, 40].length) : ℚ)) ^ 2)).sum
              / (([(10:ℚ), 20, 30, 40].length) : ℚ)
      ∧ (calculate_epoch_stats_core [10, 20, 30, 40] 0).improvement
          = (calculate_epoch_stats_core [10, 20, 30, 40] 0).best_score - 0
      ∧ (calculate_epoch_stats_core [10, 20, 30, 40] 0).best_score = 40
      ∧ (calculate_epoch_stats_core [10, 20, 30, 40] 0).worst_score = 10
      ∧ (calculate_epoch_stats_core [10, 20, 30, 40] 0).average_score = 25
      ∧ (calculate_epoch_stats_core [10, 20, 30, 40] 0).median_score = 25
      ∧ (calculate_epoch_stats_core [10, 20, 30, 40] 0).variance = 125
      ∧ Real.sqrt (((calculate_epoch_stats_core [10, 20, 30, 40] 0).variance : ℚ) : ℝ)
          = Real.sqrt 125) :=
  ⟨by simp, epoch_stats_spec [10, 20, 30, 40] 0 (by simp)⟩

/-- The descending score sort is a permutation of its input. -/
theorem sortByScoreDesc_perm (l : List ScoredGenome) : (sortByScoreDesc l).Perm l :=
  List.mergeSort_perm l _

/-- The descending score sort is pairwise score-descending. -/
theorem sortByScoreDesc_pairwise (l : List ScoredGenome) :
    List.Pairwise (fun a b => b.score ≤ a.score) (sortByScoreDesc l) := by
  have hs := @List.sorted_mergeSort ScoredGenome (fun a b => decide (b.score ≤ a.score))
    (fun a b c hab hbc =>
      decide_eq_true (le_trans (of_decide_eq_true hbc) (of_decide_eq_true hab)))
    (fun a b => by rcases le_total b.score a.score with hc | hc <;> simp [hc]) l
  exact hs.imp (fun h => of_decide_eq_true h)

/-- At least one genome is always kept as an elite. -/
theorem eliteCount_pos (simulation_count : ℕ) (elite_frac : ℚ) :
    1 ≤ eliteCount simulation_count elite_frac :=
  le_max_right _ 1

/-- Unfolding equation for offspringList on a successor count. -/
theorem offspringList_succ (sorted : List ScoredGenome) (cr : ℚ) (stats : EpochStats)
    (br : ℚ) (ep n : ℕ) (r : Rng) :
    offspringList sorted cr stats br ep (n + 1) r
      = (offspringStep sorted cr stats br ep r).1
          :: offspringList sorted cr stats br ep n
              (offspringStep sorted cr stats br ep r).2 := rfl

/-- The offspring loop fills exactly the requested number of slots. -/
theorem offspringList_length (sorted : List ScoredGenome) (cr : ℚ) (stats : EpochStats)
    (br : ℚ) (ep : ℕ) : ∀ (n : ℕ) (r : Rng),
    (offspringList sorted cr stats br ep n r).length = n := by
  intro n
  induction n with
  | zero => intro r; rfl
  | succ n ih =>
    intro r
    rw [offspringList_succ]
    rw [List.length_cons, ih]

/-- Every offspringStep output is a mutate call at the adaptive rate. -/
theorem offspringStep_mutated (sorted : List ScoredGenome) (cr : ℚ) (stats : EpochStats)
    (br : ℚ) (ep : ℕ) (r : Rng) :
    ∃ (c : Genotype) (r0 : Rng), offspringStep sorted cr stats br ep r
      = c.mutate (calculate_adaptive_mutation_rate stats br ep) r0 :=
  ⟨_, _, rfl⟩

/-- Every genome produced by the offspring loop is the output of a mutate
call at the adaptive mutation rate. -/
theorem offspringList_mem_mutated (sorted : List ScoredGenome) (cr : ℚ)
    (stats : EpochStats) (br : ℚ) (ep : ℕ) : ∀ (n : ℕ) (r : Rng),
    ∀ g ∈ offspringList sorted cr stats br ep n r,
    ∃ (c : Genotype) (r0 : Rng),
      g = (c.mutate (calculate_adaptive_mutation_rate stats br ep) r0).1 := by
  intro n
  induction n with
  | zero =>
    intro r g hg
    exact absurd hg (List.not_mem_nil g)
  | succ n ih =>
    intro r g hg
    rw [offspringList_succ] at hg
    rcases List.mem_cons.mp hg with h0 | h0
    · obtain ⟨c, r0, hstep⟩ := offspringStep_mutated sorted cr stats br ep r
      exact ⟨c, r0, by rw [h0, hstep]⟩
    · exact ih _ g h0

/-- Unfolding equation of the new-generation assembly. -/
theorem buildNewGenomes_eq (scored : List ScoredGenome) (simulation_count : ℕ)
    (elite_frac crossover_rate : ℚ) (stats : EpochStats) (base_rate : ℚ)
    (epoch : ℕ) (r : Rng) :
    buildNewGenomes scored simulation_count elite_frac crossover_rate stats base_rate epoch r
      = ((sortByScoreDesc scored).take (eliteCount simulation_count elite_frac)).map
          (fun sg => sg.genotype)
        ++ offspringList (sortByScoreDesc scored) crossover_rate stats base_rate epoch
            (simulation_count - eliteCount simulation_count elite_frac) r := rfl

/-- Taking or dropping exactly the length of the left part of an append. -/
theorem take_drop_append_len {α : Type} (A B : List α) (n : ℕ) (h : A.length = n) :
    ((A ++ B).take n = A) ∧ ((A ++ B).drop n = B) := by
  subst h
  exact ⟨List.take_left A B, List.drop_left A B⟩

/-- C3: at an epoch transition with at least one colony (and elite_count not
exceeding the number of scored colonies, which elite_ratio ∈ (0, 1]
guarantees), the next generation starts with the first elite_count =
max(ceil(simulation_count * elite_ratio), 1) ≥ 1 genomes of the
score-descending sort, each an exact unmodified copy; the genome with the
single highest score sits unmodified at index 0 < elite_count; and every
genome after the elites is the output of a mutate call at the adaptive
mutation rate. -/
theorem elitism_preserved (scored : List ScoredGenome) (simulation_count : ℕ)
    (elite_frac crossover_rate : ℚ) (stats : EpochStats) (base_rate : ℚ)
    (epoch : ℕ) (r : Rng) (hne : scored ≠ [])
    (hec : eliteCount simulation_count elite_frac ≤ scored.length) :
    1 ≤ eliteCount simulation_count elite_frac
    ∧ (buildNewGenomes scored simulation_count elite_frac crossover_rate stats
          base_rate epoch r).length
        = max simulation_count (eliteCount simulation_count elite_frac)
    ∧ (buildNewGenomes scored simulation_count elite_frac crossover_rate stats
          base_rate epoch r).take (eliteCount simulation_count elite_frac)
        = ((sortByScoreDesc scored).take (eliteCount simulation_count elite_frac)).map
            (fun sg => sg.genotype)
    ∧ List.Pairwise (fun a b => b.score ≤ a.score) (sortByScoreDesc scored)
    ∧ (sortByScoreDesc scored).Perm scored
    ∧ (∃ top : ScoredGenome,
        (sortByScoreDesc scored).head? = some top
        ∧ (buildNewGenomes scored simulation_count elite_frac crossover_rate stats
              base_rate epoch r).get? 0 = some top.genotype
        ∧ top ∈ scored
        ∧ ∀ sg ∈ scored, sg.score ≤ top.score)
    ∧ (∀ g ∈ (buildNewGenomes scored simulation_count elite_frac crossover_rate stats
          base_rate epoch r).drop (eliteCount simulation_count elite_frac),
        ∃ (c : Genotype) (r0 : Rng),
          g = (c.mutate (calculate_adaptive_mutation_rate stats base_rate epoch) r0).1) := by
  have hsl : (sortByScoreDesc scored).length = scored.length :=
    (sortByScoreDesc_perm scored).length_eq
  have hlen : (((sortByScoreDesc scored).take
      (eliteCount simulation_count elite_frac)).map (fun sg => sg.genotype)).length
      = eliteCount simulation_count elite_frac := by
    rw [List.length_map, List.length_take, hsl]
    omega
  have hne2 : sortByScoreDesc scored ≠ [] := by
    intro h0
    apply hne
    have hp := sortByScoreDesc_perm scored
    rw [h0] at hp
    exact (hp.symm).eq_nil
  obtain ⟨top, rest, hcons⟩ := List.exists_cons_of_ne_nil hne2
  obtain ⟨k, hk⟩ : ∃ k, eliteCount simulation_count elite_frac = k + 1 :=
    ⟨eliteCount simulation_count elite_frac - 1,
     by have := eliteCount_pos simulation_count elite_frac; omega⟩
  refine ⟨eliteCount_pos simulation_count elite_frac, ?_, ?_,
    sortByScoreDesc_pairwise scored, sortByScoreDesc_perm scored, ?_, ?_⟩
  · rw [buildNewGenomes_eq, List.length_append, hlen, offspringList_length]
    have := eliteCount_pos simulation_count elite_frac
    omega
  · rw [buildNewGenomes_eq]
    exact (take_drop_append_len _ _ _ hlen).1
  · refine ⟨top, by rw [hcons]; rfl, ?_, ?_, ?_⟩
    · rw [buildNewGenomes_eq, hcons, hk, List.take_succ_cons]
      rfl
    · exact ((sortByScoreDesc_perm scored).mem_iff).mp (by rw [hcons]; exact List.mem_cons_self _ _)
    · intro sg hsg
      have hmem : sg ∈ sortByScoreDesc scored :=
        ((sortByScoreDesc_perm scored).mem_iff).mpr hsg
      rw [hcons] at hmem
      rcases List.mem_cons.mp hmem with rfl | hmem2
      · exact le_refl _
      · have hp := sortByScoreDesc_pairwise scored
        rw [hcons] at hp
        exact (List.pairwise_cons.mp hp).1 sg hmem2
  · intro g hg
    rw [buildNewGenomes_eq, (take_drop_append_len _ _ _ hlen).2] at hg
    exact offspringList_mem_mutated (sortByScoreDesc scored) crossover_rate stats
      base_rate epoch _ r g hg

/-- Witness for C3: two colonies scoring 5 and 7, simulation_count 2 and
elite fraction 1/2, so exactly one elite (the score-7 genome) is copied. -/
theorem elitism_preserved_witness :
    scoredDemo ≠ []
    ∧ eliteCount 2 (1/2) ≤ scoredDemo.length
    ∧ (1 ≤ eliteCount 2 (1/2)
      ∧ (buildNewGenomes scoredDemo 2 (1/2) 0 statsDemo 0 1 rng0).length
          = max 2 (eliteCount 2 (1/2))
      ∧ (buildNewGenomes scoredDemo 2 (1/2) 0 statsDemo 0 1 rng0).take (eliteCount 2 (1/2))
          = ((sortByScoreDesc scoredDemo).take (eliteCount 2 (1/2))).map
              (fun sg => sg.genotype)
      ∧ List.Pairwise (fun a b => b.score ≤ a.score) (sortByScoreDesc scoredDemo)
      ∧ (sortByScoreDesc scoredDemo).Perm scoredDemo
      ∧ (∃ top : ScoredGenome,
          (sortByScoreDesc scoredDemo).head? = some top
          ∧ (buildNewGenomes scoredDemo 2 (1/2) 0 statsDemo 0 1 rng0).get? 0
              = some top.genotype
          ∧ top ∈ scoredDemo
          ∧ ∀ sg ∈ scoredDemo, sg.score ≤ top.score)
      ∧ (∀ g ∈ (buildNewGenomes scoredDemo 2 (1/2) 0 statsDemo 0 1 rng0).drop
            (eliteCount 2 (1/2)),
          ∃ (c : Genotype) (r0 : Rng),
            g = (c.mutate (calculate_adaptive_mutation_rate statsDemo 0 1) r0).1)) :=
  ⟨by simp [scoredDemo],
   by norm_num [eliteCount, scoredDemo],
   elitism_preserved scoredDemo 2 (1/2) 0 statsDemo 0 1 rng0
     (by simp [scoredDemo]) (by norm_num [eliteCount, scoredDemo])⟩

/-- C6: for a same-colony pair whose separation passes the range filter
(squared distance between 0.001 and R²), the accumulated contribution
acceleration * max_force_range equals the unit direction vector scaled by
max_force_range and by the piecewise magnitude in the normalized distance
d = |Δ|/R against r = min_r/R: d/r - 1 below r (repulsive and independent
of the genome), and the attraction-scaled tent curve from r on, which is 0
at d = r and d = 1 and equals the attraction at d = (1 + r)/2. -/
theorem pair_force_piecewise (min_r : ℝ) (delta : Vec3) (attraction R : ℝ)
    (hR : 0 < R)
    (hlo : 1/1000 ≤ delta.x ^ 2 + delta.y ^ 2 + delta.z ^ 2)
    (hhi : delta.x ^ 2 + delta.y ^ 2 + delta.z ^ 2 ≤ R ^ 2)
    (hr1 : min_r / R < 1) :
    pairForceContribution min_r delta attraction R
      = Vec3.smul (R * specForceMagnitude (min_r / R) attraction (delta.len / R))
          (delta.divs delta.len)
    ∧ specForceMagnitude (min_r / R) attraction (min_r / R) = 0
    ∧ specForceMagnitude (min_r / R) attraction 1 = 0
    ∧ specForceMagnitude (min_r / R) attraction ((1 + min_r / R) / 2) = attraction
    ∧ (∀ a1 a2 d : ℝ, d < min_r / R →
        specForceMagnitude (min_r / R) a1 d = specForceMagnitude (min_r / R) a2 d) := by
  have hL0 : (0:ℝ) < delta.x ^ 2 + delta.y ^ 2 + delta.z ^ 2 := by
    calc (0:ℝ) < 1/1000 := by norm_num
    _ ≤ _ := hlo
  have hd0 : 0 < delta.len := Real.sqrt_pos.mpr hL0
  have hdlo : (1/1000 : ℝ) ≤ delta.len :=
    (Real.le_sqrt' (by norm_num)).mpr (by nlinarith)
  have hnotlt : ¬ (delta.len < 1/1000) := not_lt.mpr hdlo
  have hdne : delta.len ≠ 0 := ne_of_gt hd0
  have hRne : R ≠ 0 := ne_of_gt hR
  have hsub : (0:ℝ) < 1 - min_r / R := by linarith
  refine ⟨?_, ?_, ?_, ?_, ?_⟩
  · have hacc : calculate_acceleration min_r delta attraction R
        = Vec3.smul
            ((specForceMagnitude (min_r / R) attraction (delta.len / R))
              / (delta.len / R))
            (delta.divs R) := by
      unfold calculate_acceleration specForceMagnitude
      rw [if_neg hnotlt]
    unfold pairForceContribution
    rw [hacc]
    unfold Vec3.smul Vec3.divs
    rw [Vec3.mk.injEq]
    refine ⟨?_, ?_, ?_⟩ <;> field_simp <;> ring
  · unfold specForceMagnitude
    rw [if_neg (lt_irrefl _)]
    rw [show (1:ℝ) + min_r / R - 2 * (min_r / R) = 1 - min_r / R by ring,
      abs_of_nonneg (by linarith), div_self (ne_of_gt hsub)]
    ring
  · unfold specForceMagnitude
    rw [if_neg (by linarith : ¬ ((1:ℝ) < min_r / R))]
    rw [show (1:ℝ) + min_r / R - 2 * 1 = -(1 - min_r / R) by ring, abs_neg,
      abs_of_nonneg (by linarith), div_self (ne_of_gt hsub)]
    ring
  · unfold specForceMagnitude
    rw [if_neg (not_lt.mpr (by linarith : min_r / R ≤ (1 + min_r / R) / 2))]
    rw [show (1:ℝ) + min_r / R - 2 * ((1 + min_r / R) / 2) = 0 by ring, abs_zero,
      zero_div]
    ring
  · intro a1 a2 d hd
    unfold specForceMagnitude
    rw [if_pos hd, if_pos hd]

/-- Witness for C6 at Δ = (3, 4, 0) (length 5), R = 10, min_r = 2 (so the
normalized repulsion radius is 1/5) and attraction 7. -/
theorem pair_force_piecewise_witness :
    (0:ℝ) < 10
    ∧ (1/1000 : ℝ) ≤ (Vec3.mk 3 4 0).x ^ 2 + (Vec3.mk 3 4 0).y ^ 2 + (Vec3.mk 3 4 0).z ^ 2
    ∧ (Vec3.mk 3 4 0).x ^ 2 + (Vec3.mk 3 4 0).y ^ 2 + (Vec3.mk 3 4 0).z ^ 2 ≤ (10:ℝ) ^ 2
    ∧ (2:ℝ) / 10 < 1
    ∧ (pairForceContribution 2 (Vec3.mk 3 4 0) 7 10
        = Vec3.smul
            (10 * specForceMagnitude ((2:ℝ) / 10) 7 ((Vec3.mk 3 4 0).len / 10))
            ((Vec3.mk 3 4 0).divs (Vec3.mk 3 4 0).len)
      ∧ specForceMagnitude ((2:ℝ) / 10) 7 ((2:ℝ) / 10) = 0
      ∧ specForceMagnitude ((2:ℝ) / 10) 7 1 = 0
      ∧ specForceMagnitude ((2:ℝ) / 10) 7 ((1 + (2:ℝ) / 10) / 2) = 7
      ∧ (∀ a1 a2 d : ℝ, d < (2:ℝ) / 10 →
          specForceMagnitude ((2:ℝ) / 10) a1 d = specForceMagnitude ((2:ℝ) / 10) a2 d)) :=
  ⟨by norm_num, by norm_num, by norm_num, by norm_num,
   pair_force_piecewise 2 (Vec3.mk 3 4 0) 7 10 (by norm_num) (by norm_num)
     (by norm_num) (by norm_num)⟩
